import Mathlib

/-!
Shallow embedding of the NLP-Hypnosis-Sales Toolkit API (`src/main.py`).

Python strings are modelled as lists of characters (`Str`); a pack document
is an insertion-ordered mapping from section key to section text, modelled
as an association list (Python dicts preserve insertion order and have
unique keys).  The data directory is modelled as an association list from
file stem (the pack name, as listed by `os.listdir` after stripping the
`.json` suffix) to the parsed document.  Each endpoint becomes a pure
function of this store; FastAPI's `HTTPException` becomes the `error`
branch of `Except HTTPError`, and any normal return carries HTTP status
200.
-/

set_option maxHeartbeats 1000000

namespace Toolkit

/-- A Python string: a sequence of characters. -/
abbrev Str : Type := List Char

/-- A parsed pack document: insertion-ordered mapping from section key to
section text (`Dict[str, str]` in the shape the service assumes). -/
abbrev Pack : Type := List (Str × Str)

/-- The data directory: file stem (pack name) paired with its parsed JSON
document, in directory-listing order. -/
abbrev Store : Type := List (Str × Pack)

/-- A JSON value, used for pass-through payloads (`Any` in the Python
type annotations). -/
inductive Json : Type where
  | null : Json
  | str (s : Str) : Json
  | num (n : Int) : Json
  | bool (b : Bool) : Json
  | obj (fields : List (Str × Json)) : Json
  | arr (elems : List Json) : Json

/-- A JSON object body, as a field list (`Dict[str, Any]`). -/
abbrev JsonObj : Type := List (Str × Json)

/-- `str.lower()`: character-wise lowercasing. -/
def lower (s : Str) : Str := s.map Char.toLower

/-- `str.strip()`: drop whitespace from both ends. -/
def strip (s : Str) : Str :=
  ((s.dropWhile Char.isWhitespace).reverse.dropWhile Char.isWhitespace).reverse

/-- Python's `needle in haystack` on strings: substring containment. -/
def substr (needle haystack : Str) : Bool := decide (needle <:+: haystack)

/-- `raise HTTPException(status_code=..., detail=...)`. -/
structure HTTPError : Type where
  status : Nat
  detail : Str
deriving DecidableEq

/-- The HTTP status of a handler outcome: an uncaught `HTTPException`
carries its status code, a normal return is served with 200. -/
def httpStatus {α : Type} : Except HTTPError α → Nat
  | Except.error e => e.status
  | Except.ok _ => 200

/-- `class PackRequest(BaseModel)` from `src/main.py`. -/
structure PackRequest : Type where
  pack : Str
  sections : Option (List Str) := none
  format : Option Str := some "json".data
  options : Option JsonObj := none

/-- `class SearchRequest(BaseModel)` from `src/main.py`. -/
structure SearchRequest : Type where
  q : Str

/-- `load_pack` (src/main.py:26-31): resolve `<data-dir>/<name.lower()>.json`;
`none` models `FileNotFoundError`. -/
def load_pack (store : Store) (pack_name : Str) : Option Pack :=
  store.lookup (lower pack_name)

/-- `filter_sections` (src/main.py:33-37): `if not keys: return full_pack`,
else keep the entries whose key occurs in `keys`. -/
def filter_sections (full_pack : Pack) (keys : Option (List Str)) : Pack :=
  match keys with
  | none => full_pack
  | some ks =>
    if ks.isEmpty then full_pack
    else full_pack.filter (fun kv => ks.contains kv.1)

/-- The pack catalog (src/main.py:46, 63): stems of the `.json` files in the
data directory, in listing order. -/
def catalog (store : Store) : List Str := store.map Prod.fst

/-- Response of `POST /get_pack`. -/
structure GetPackResponse : Type where
  pack : Str
  content : Pack
  meta_format : Option Str
  meta_options : JsonObj

/-- `get_pack` (src/main.py:49-57). -/
def get_pack (store : Store) (req : PackRequest) : Except HTTPError GetPackResponse :=
  let pack_name := lower req.pack
  match load_pack store pack_name with
  | none =>
    Except.error ⟨404, "Pack \x27".data ++ pack_name ++ "\x27 not found.".data⟩
  | some content =>
    Except.ok ⟨pack_name, filter_sections content req.sections,
               req.format, req.options.getD []⟩

/-- One entry of a `/search` response. -/
structure SearchResult : Type where
  pack : Str
  sectionKey : Str
  excerpt : Str
deriving DecidableEq

/-- Response of `POST /search`. -/
structure SearchResponse : Type where
  query : Str
  results : List SearchResult
deriving DecidableEq

/-- The pack scope of a search (src/main.py:63):
`packs = [pack] if pack else [stems of listing]` — note Python truthiness:
an empty-string `pack` also selects the whole catalog. -/
def searchScope (store : Store) (pack : Option Str) : List Str :=
  match pack with
  | some p => if p.isEmpty then catalog store else [p]
  | none => catalog store

/-- The `for p in packs` loop of `search_pack` (src/main.py:64-71): a pack
that fails to load (`FileNotFoundError`) is skipped; in a loaded pack every
section whose lowercased `key ++ " " ++ text` contains the normalized query
contributes one result carrying the original key and `text[:300]`. -/
def searchLoop (store : Store) (q : Str) : List Str → List SearchResult
  | [] => []
  | p :: rest =>
    (match load_pack store p with
     | none => []
     | some data =>
       (data.filter (fun kv => substr q (lower kv.1 ++ [' '] ++ lower kv.2))).map
         (fun kv => ⟨p, kv.1, kv.2.take 300⟩))
    ++ searchLoop store q rest

/-- `search_pack` (src/main.py:59-72): normalize the query by
`strip` then `lower`, then scan the scoped packs. -/
def search_pack (store : Store) (req : SearchRequest) (pack : Option Str) :
    SearchResponse :=
  let q := lower (strip req.q)
  ⟨q, searchLoop store q (searchScope store pack)⟩

/-- The static palette table of `render_payload` (src/main.py:89-93),
including the `.get(key, {})` default. -/
def palette_table (name : Str) : List (Str × Str) :=
  if name = "nlp".data then
    [("bg".data, "#ffffff".data), ("primary".data, "#0B5F9A".data),
     ("accent".data, "#2A9D7D".data)]
  else if name = "hypnosis".data then
    [("bg".data, "#e8f2ff".data), ("primary".data, "#4750B8".data),
     ("accent".data, "#2AA199".data)]
  else if name = "sales".data then
    [("bg".data, "#fff9e6".data), ("primary".data, "#D9534F".data),
     ("accent".data, "#E89E2D".data)]
  else []

/-- The `style` block of a render payload. -/
structure Style : Type where
  theme : Str
  palette : List (Str × Str)
  fonts : List Str
deriving DecidableEq

/-- Response of `POST /render_payload`. -/
structure RenderPayload : Type where
  pack : Str
  style : Style
  sections : Pack
  options : JsonObj

/-- `render_payload` (src/main.py:74-99). -/
def render_payload (store : Store) (req : PackRequest) :
    Except HTTPError RenderPayload :=
  match load_pack store (lower req.pack) with
  | none =>
    Except.error ⟨404, "Pack \x27".data ++ req.pack ++ "\x27 not found.".data⟩
  | some content =>
    Except.ok
      { pack := req.pack
        style :=
          { theme := lower req.pack
            palette := palette_table (lower req.pack)
            fonts := ["Inter".data, "Nunito".data] }
        sections := filter_sections content req.sections
        options := req.options.getD [] }

/-- `schema` (src/main.py:102-109): `cfg` is the parsed contents of the
fixed metadata file `app_schema/config.json` when it exists. -/
def schema (cfg : Option Json) : Except HTTPError Json :=
  match cfg with
  | some j => Except.ok j
  | none => Except.ok (Json.obj [("error".data, Json.str "config.json missing".data)])

/-- Python `str.title()`: uppercase the first letter of each alphabetic
run, lowercase the rest (src/main.py:120). -/
def titlecaseAux : Bool → Str → Str
  | _, [] => []
  | prevAlpha, c :: rest =>
    (if c.isAlpha then (if prevAlpha then c.toLower else c.toUpper) else c)
      :: titlecaseAux c.isAlpha rest

/-- Python `str.title()` applied from the start of the string. -/
def titlecase (s : Str) : Str := titlecaseAux false s

/-- `preview` (src/main.py:112-124): note the fixed, name-free 404 detail. -/
def preview (store : Store) (pack_name : Str) : Except HTTPError Str :=
  match load_pack store pack_name with
  | none => Except.error ⟨404, "Pack not found".data⟩
  | some content =>
    let html0 :=
      "<html><head><meta charset=\x27utf-8\x27><title>Preview</title></head><body>".data
        ++ "<h1>".data ++ titlecase pack_name ++ " Preview</h1>".data
    let html1 := content.foldl
      (fun acc kv =>
        acc ++ "<section><h2>".data ++ kv.1 ++ "</h2><p>".data ++ kv.2
            ++ "</p></section>".data)
      html0
    Except.ok (html1 ++ "</body></html>".data)

/-! ### Helper lemmas -/

theorem substr_iff {needle haystack : Str} :
    substr needle haystack = true ↔ needle <:+: haystack := by
  simp [substr]

theorem substr_nil (haystack : Str) : substr [] haystack = true :=
  substr_iff.2 List.nil_infix

theorem strip_eq_nil {s : Str} (h : ∀ c ∈ s, c.isWhitespace) : strip s = [] := by
  unfold strip
  rw [List.dropWhile_eq_nil_iff.2 h]
  rfl

theorem searchLoop_append (store : Store) (q : Str) (l1 l2 : List Str) :
    searchLoop store q (l1 ++ l2) = searchLoop store q l1 ++ searchLoop store q l2 := by
  induction l1 with
  | nil => simp [searchLoop]
  | cons p rest ih => simp [searchLoop, ih, List.append_assoc]

theorem mem_searchLoop {store : Store} {q : Str} {packs : List Str}
    {r : SearchResult} :
    r ∈ searchLoop store q packs ↔
      ∃ p ∈ packs, ∃ data, load_pack store p = some data ∧
        ∃ kv ∈ data, substr q (lower kv.1 ++ [' '] ++ lower kv.2) = true ∧
          r = ⟨p, kv.1, kv.2.take 300⟩ := by
  induction packs with
  | nil => simp [searchLoop]
  | cons p rest ih =>
    simp only [searchLoop, List.mem_append, ih, List.mem_cons]
    constructor
    · rintro (hhead | ⟨p', hp', rest'⟩)
      · cases hload : load_pack store p with
        | none => rw [hload] at hhead; cases hhead
        | some data =>
          rw [hload] at hhead
          obtain ⟨kv, hkv, hr⟩ := List.mem_map.1 hhead
          obtain ⟨hmem, hcond⟩ := List.mem_filter.1 hkv
          exact ⟨p, Or.inl rfl, data, hload, kv, hmem, hcond, hr.symm⟩
      · exact ⟨p', Or.inr hp', rest'⟩
    · rintro ⟨p', hp' | hp', data, hload, kv, hkv, hcond, hr⟩
      · subst hp'
        refine Or.inl ?_
        rw [hload]
        exact List.mem_map.2 ⟨kv, List.mem_filter.2 ⟨hkv, hcond⟩, hr.symm⟩
      · exact Or.inr ⟨p', hp', data, hload, kv, hkv, hcond, hr⟩

theorem assoc_value_unique {data : Pack} {k v1 v2 : Str}
    (hnd : (data.map Prod.fst).Nodup)
    (h1 : (k, v1) ∈ data) (h2 : (k, v2) ∈ data) : v1 = v2 := by
  induction data with
  | nil => cases h1
  | cons kv rest ih =>
    simp only [List.map_cons, List.nodup_cons] at hnd
    rcases List.mem_cons.1 h1 with h1h | h1t <;> rcases List.mem_cons.1 h2 with h2h | h2t
    · exact (Prod.ext_iff.1 (h1h.trans h2h.symm)).2
    · exfalso
      apply hnd.1
      rw [← h1h]
      exact List.mem_map.2 ⟨(k, v2), h2t, rfl⟩
    · exfalso
      apply hnd.1
      rw [← h2h]
      exact List.mem_map.2 ⟨(k, v1), h1t, rfl⟩
    · exact ih hnd.2 h1t h2t

/-! ### Claims -/

/-- C1: `filter_sections` returns the pack unchanged when the key list is
absent or empty; otherwise it returns exactly the entries of the pack whose
key appears in the requested list, so unknown requested keys contribute
nothing and raise no error. -/
theorem filter_sections_correct (p : Pack) (ks : List Str) :
    filter_sections p none = p ∧
    filter_sections p (some []) = p ∧
    (ks ≠ [] →
      ∀ k v, ((k, v) ∈ filter_sections p (some ks) ↔ (k, v) ∈ p ∧ k ∈ ks)) := by
  refine ⟨rfl, rfl, fun hks k v => ?_⟩
  cases ks with
  | nil => exact absurd rfl hks
  | cons a t => simp [filter_sections, List.mem_filter]

/-- C1 witness: concrete evaluation of the three parts of
`filter_sections_correct`. -/
theorem filter_sections_correct_witness :
    filter_sections [("a".data, "x".data), ("b".data, "y".data)] none
        = [("a".data, "x".data), ("b".data, "y".data)] ∧
    filter_sections [("a".data, "x".data), ("b".data, "y".data)] (some [])
        = [("a".data, "x".data), ("b".data, "y".data)] ∧
    (("a".data, "x".data)
        ∈ filter_sections [("a".data, "x".data), ("b".data, "y".data)]
            (some ["a".data, "c".data]) ↔
      ("a".data, "x".data) ∈ [("a".data, "x".data), ("b".data, "y".data)]
        ∧ "a".data ∈ ["a".data, "c".data]) :=
  ⟨(filter_sections_correct [("a".data, "x".data), ("b".data, "y".data)]
      ["a".data, "c".data]).1,
   (filter_sections_correct [("a".data, "x".data), ("b".data, "y".data)]
      ["a".data, "c".data]).2.1,
   (filter_sections_correct [("a".data, "x".data), ("b".data, "y".data)]
      ["a".data, "c".data]).2.2 (by decide) "a".data "x".data⟩

/-- C7: for a pack present in the catalog, `get_pack` with no sections
filter returns the raw backing document as `content`, unchanged. -/
theorem get_pack_full_content (store : Store) (req : PackRequest) (content : Pack)
    (hs : req.sections = none)
    (hl : load_pack store (lower req.pack) = some content) :
    ∃ resp, get_pack store req = Except.ok resp ∧ resp.content = content := by
  refine ⟨⟨lower req.pack, content, req.format, req.options.getD []⟩, ?_, rfl⟩
  simp [get_pack, hl, hs, filter_sections]

/-- C7 witness: concrete evaluation of `get_pack_full_content`. -/
theorem get_pack_full_content_witness :
    ∃ resp,
      get_pack [("sales".data, [("opening".data, "Build rapport fast.".data)])]
          ⟨"sales".data, none, some "json".data, none⟩ = Except.ok resp ∧
      resp.content = [("opening".data, "Build rapport fast.".data)] :=
  get_pack_full_content
    [("sales".data, [("opening".data, "Build rapport fast.".data)])]
    ⟨"sales".data, none, some "json".data, none⟩
    [("opening".data, "Build rapport fast.".data)] rfl (by decide)

/-- C8: the schema endpoint never raises: it answers with status 200 in
both cases, returning the metadata file's contents when present and the
error-shaped body otherwise. -/
theorem schema_total_200 :
    (∀ cfg : Option Json, httpStatus (schema cfg) = 200) ∧
    (∀ j : Json, schema (some j) = Except.ok j) ∧
    schema none =
      Except.ok (Json.obj [("error".data, Json.str "config.json missing".data)]) := by
  refine ⟨fun cfg => ?_, fun j => rfl, rfl⟩
  cases cfg <;> rfl

/-- C4 counterexample: for the absent pack name `unknownpack`, the preview
endpoint fails with 404 but its message is the fixed string
`Pack not found`, which does not contain the requested name — refuting the
claim that all three endpoints echo the name. -/
theorem preview_message_omits_name :
    preview ([] : Store) "unknownpack".data
        = Except.error ⟨404, "Pack not found".data⟩ ∧
    substr "unknownpack".data "Pack not found".data = false :=
  ⟨rfl, by decide⟩

/-- C4 (amended): on a missing pack, `get_pack` fails with a 404 whose
message contains the lowercased requested name, `render_payload` fails with
a 404 whose message contains the verbatim requested name, and the preview
endpoint fails with a 404 carrying the fixed message `Pack not found`
(no name echoed). -/
theorem notfound_errors_404 (store : Store) (req : PackRequest) (name : Str)
    (hg : load_pack store (lower req.pack) = none)
    (hp : load_pack store name = none) :
    httpStatus (get_pack store req) = 404 ∧
    (∃ e, get_pack store req = Except.error e ∧
      substr (lower req.pack) e.detail = true) ∧
    httpStatus (render_payload store req) = 404 ∧
    (∃ e, render_payload store req = Except.error e ∧
      substr req.pack e.detail = true) ∧
    preview store name = Except.error ⟨404, "Pack not found".data⟩ := by
  have hg' : get_pack store req =
      Except.error ⟨404, "Pack \x27".data ++ lower req.pack
                          ++ "\x27 not found.".data⟩ := by
    simp [get_pack, hg]
  have hr' : render_payload store req =
      Except.error ⟨404, "Pack \x27".data ++ req.pack
                          ++ "\x27 not found.".data⟩ := by
    simp [render_payload, hg]
  have hp' : preview store name = Except.error ⟨404, "Pack not found".data⟩ := by
    simp [preview, hp]
  refine ⟨by rw [hg']; rfl,
          ⟨_, hg', substr_iff.2 (List.infix_append _ _ _)⟩,
          by rw [hr']; rfl,
          ⟨_, hr', substr_iff.2 (List.infix_append _ _ _)⟩, hp'⟩

/-- C4 witness: concrete evaluation of `notfound_errors_404` on an empty
store and the request name `Ghost`. -/
theorem notfound_errors_404_witness :
    httpStatus (get_pack ([] : Store)
        ⟨"Ghost".data, none, some "json".data, none⟩) = 404 ∧
    (∃ e, get_pack ([] : Store) ⟨"Ghost".data, none, some "json".data, none⟩
          = Except.error e ∧
      substr (lower "Ghost".data) e.detail = true) ∧
    httpStatus (render_payload ([] : Store)
        ⟨"Ghost".data, none, some "json".data, none⟩) = 404 ∧
    (∃ e, render_payload ([] : Store) ⟨"Ghost".data, none, some "json".data, none⟩
          = Except.error e ∧
      substr "Ghost".data e.detail = true) ∧
    preview ([] : Store) "unknown".data
        = Except.error ⟨404, "Pack not found".data⟩ :=
  notfound_errors_404 ([] : Store) ⟨"Ghost".data, none, some "json".data, none⟩
    "unknown".data (by decide) (by decide)

/-- C9: when the pack exists, `get_pack` echoes the lowercased request name
in its `pack` field while `render_payload` echoes the request string
verbatim; for a non-lowercase spelling the two echoed strings differ. -/
theorem pack_echo_casing (store : Store) (req : PackRequest) (content : Pack)
    (hl : load_pack store (lower req.pack) = some content)
    (hne : lower req.pack ≠ req.pack) :
    ∃ r1 r2, get_pack store req = Except.ok r1 ∧
      render_payload store req = Except.ok r2 ∧
      r1.pack = lower req.pack ∧ r2.pack = req.pack ∧ r1.pack ≠ r2.pack := by
  refine ⟨⟨lower req.pack, filter_sections content req.sections,
           req.format, req.options.getD []⟩,
          ⟨req.pack,
           ⟨lower req.pack, palette_table (lower req.pack),
            ["Inter".data, "Nunito".data]⟩,
           filter_sections content req.sections, req.options.getD []⟩,
          ?_, ?_, rfl, rfl, hne⟩
  · simp [get_pack, hl]
  · simp [render_payload, hl]

/-- C9 witness: concrete evaluation of `pack_echo_casing` with the pack
`nlp` requested as `NLP`. -/
theorem pack_echo_casing_witness :
    ∃ r1 r2,
      get_pack [("nlp".data, [("k".data, "v".data)])]
          ⟨"NLP".data, none, some "json".data, none⟩ = Except.ok r1 ∧
      render_payload [("nlp".data, [("k".data, "v".data)])]
          ⟨"NLP".data, none, some "json".data, none⟩ = Except.ok r2 ∧
      r1.pack = lower "NLP".data ∧ r2.pack = "NLP".data ∧ r1.pack ≠ r2.pack :=
  pack_echo_casing [("nlp".data, [("k".data, "v".data)])]
    ⟨"NLP".data, none, some "json".data, none⟩
    [("k".data, "v".data)] (by decide) (by decide)

/-- C6: for an existing pack, the rendered style block has
`theme = lowercase(pack)`, the fixed palette for `nlp` / `hypnosis` /
`sales` (empty for any other name), the fixed font list, and the payload's
`options` is the request's options (empty object when absent). -/
theorem render_style_correct (store : Store) (req : PackRequest) (content : Pack)
    (hl : load_pack store (lower req.pack) = some content) :
    ∃ payload, render_payload store req = Except.ok payload ∧
      payload.style.theme = lower req.pack ∧
      payload.style.fonts = ["Inter".data, "Nunito".data] ∧
      (lower req.pack = "nlp".data →
        payload.style.palette =
          [("bg".data, "#ffffff".data), ("primary".data, "#0B5F9A".data),
           ("accent".data, "#2A9D7D".data)]) ∧
      (lower req.pack = "hypnosis".data →
        payload.style.palette =
          [("bg".data, "#e8f2ff".data), ("primary".data, "#4750B8".data),
           ("accent".data, "#2AA199".data)]) ∧
      (lower req.pack = "sales".data →
        payload.style.palette =
          [("bg".data, "#fff9e6".data), ("primary".data, "#D9534F".data),
           ("accent".data, "#E89E2D".data)]) ∧
      (lower req.pack ≠ "nlp".data → lower req.pack ≠ "hypnosis".data →
        lower req.pack ≠ "sales".data → payload.style.palette = []) ∧
      (∀ o, req.options = some o → payload.options = o) ∧
      (req.options = none → payload.options = []) := by
  refine ⟨⟨req.pack,
           ⟨lower req.pack, palette_table (lower req.pack),
            ["Inter".data, "Nunito".data]⟩,
           filter_sections content req.sections, req.options.getD []⟩,
          ?_, rfl, rfl, ?_, ?_, ?_, ?_, ?_, ?_⟩
  · simp [render_payload, hl]
  · intro h
    simp only [palette_table, h]
    rfl
  · intro h
    rw [show palette_table (lower req.pack) = palette_table "hypnosis".data from by rw [h]]
    rfl
  · intro h
    rw [show palette_table (lower req.pack) = palette_table "sales".data from by rw [h]]
    rfl
  · intro h1 h2 h3
    simp only [palette_table, if_neg h1, if_neg h2, if_neg h3]
  · intro o ho
    simp [ho]
  · intro ho
    simp [ho]

/-- C6 witness: concrete evaluation of `render_style_correct` on the
`nlp` pack. -/
theorem render_style_correct_witness :
    ∃ payload,
      render_payload [("nlp".data, [("k".data, "v".data)])]
          ⟨"nlp".data, none, some "json".data, none⟩ = Except.ok payload ∧
      payload.style.theme = lower "nlp".data ∧
      payload.style.fonts = ["Inter".data, "Nunito".data] ∧
      (lower "nlp".data = "nlp".data →
        payload.style.palette =
          [("bg".data, "#ffffff".data), ("primary".data, "#0B5F9A".data),
           ("accent".data, "#2A9D7D".data)]) ∧
      (lower "nlp".data = "hypnosis".data →
        payload.style.palette =
          [("bg".data, "#e8f2ff".data), ("primary".data, "#4750B8".data),
           ("accent".data, "#2AA199".data)]) ∧
      (lower "nlp".data = "sales".data →
        payload.style.palette =
          [("bg".data, "#fff9e6".data), ("primary".data, "#D9534F".data),
           ("accent".data, "#E89E2D".data)]) ∧
      (lower "nlp".data ≠ "nlp".data → lower "nlp".data ≠ "hypnosis".data →
        lower "nlp".data ≠ "sales".data → payload.style.palette = []) ∧
      (∀ o, (none : Option JsonObj) = some o → payload.options = o) ∧
      ((none : Option JsonObj) = none → payload.options = []) :=
  render_style_correct [("nlp".data, [("k".data, "v".data)])]
    ⟨"nlp".data, none, some "json".data, none⟩
    [("k".data, "v".data)] (by decide)

/-- C2: a section of a loaded pack in scope yields a search result exactly
when the normalized query occurs in `lowercase(key) ++ " " ++
lowercase(text)`; the result carries the original section key. -/
theorem search_match_iff (store : Store) (req : SearchRequest) (popt : Option Str)
    (p : Str) (data : Pack) (sec text : Str)
    (hp : p ∈ searchScope store popt)
    (hl : load_pack store p = some data)
    (hnd : (data.map Prod.fst).Nodup)
    (hs : (sec, text) ∈ data) :
    ((⟨p, sec, text.take 300⟩ : SearchResult)
        ∈ (search_pack store req popt).results ↔
      substr (lower (strip req.q)) (lower sec ++ [' '] ++ lower text) = true) := by
  have hres : (search_pack store req popt).results =
      searchLoop store (lower (strip req.q)) (searchScope store popt) := rfl
  rw [hres, mem_searchLoop]
  constructor
  · rintro ⟨p', hp', data', hl', kv, hkv, hcond, heq⟩
    have hpp : p = p' := congrArg SearchResult.pack heq
    have hsec : sec = kv.1 := congrArg SearchResult.sectionKey heq
    subst hpp
    rw [hl] at hl'
    injection hl' with hdd
    subst hdd
    have hkv' : (sec, kv.2) ∈ data := by
      rw [hsec]
      exact hkv
    have hvt : kv.2 = text := assoc_value_unique hnd hkv' hs
    rw [← hsec, hvt] at hcond
    exact hcond
  · intro hcond
    exact ⟨p, hp, data, hl, (sec, text), hs, hcond, rfl⟩

/-- C2 witness: concrete evaluation of `search_match_iff` on the `sales`
pack with the mixed-case query ` RappORT `. -/
theorem search_match_iff_witness :
    ((⟨"sales".data, "opening".data, ("Build rapport fast.".data).take 300⟩
          : SearchResult)
        ∈ (search_pack
            [("sales".data, [("opening".data, "Build rapport fast.".data)])]
            ⟨" RappORT ".data⟩ none).results ↔
      substr (lower (strip " RappORT ".data))
        (lower "opening".data ++ [' '] ++ lower "Build rapport fast.".data)
        = true) :=
  search_match_iff
    [("sales".data, [("opening".data, "Build rapport fast.".data)])]
    ⟨" RappORT ".data⟩ none "sales".data
    [("opening".data, "Build rapport fast.".data)]
    "opening".data "Build rapport fast.".data
    (by decide) (by decide) (by decide) (by decide)

/-- C3: every search result's excerpt is the 300-character prefix of the
originating section text: its length is at most 300, and it equals the
whole text whenever the text has at most 300 characters. -/
theorem search_excerpt_bound (store : Store) (req : SearchRequest)
    (popt : Option Str) (r : SearchResult)
    (hr : r ∈ (search_pack store req popt).results) :
    r.excerpt.length ≤ 300 ∧
    ∃ p data sec text, p ∈ searchScope store popt ∧
      load_pack store p = some data ∧ (sec, text) ∈ data ∧
      r = ⟨p, sec, text.take 300⟩ ∧ r.excerpt = text.take 300 ∧
      (text.length ≤ 300 → r.excerpt = text) := by
  have hr' : r ∈ searchLoop store (lower (strip req.q)) (searchScope store popt) :=
    hr
  rw [mem_searchLoop] at hr'
  obtain ⟨p, hp, data, hl, kv, hkv, hcond, heq⟩ := hr'
  subst heq
  refine ⟨?_, p, data, kv.1, kv.2, hp, hl, hkv, rfl, rfl, ?_⟩
  · simp only [List.length_take]
    exact Nat.min_le_left _ _
  · intro hle
    exact List.take_of_length_le hle

/-- C3 witness: concrete evaluation of `search_excerpt_bound` on the one
result of a search over the `sales` pack. -/
theorem search_excerpt_bound_witness :
    (⟨"sales".data, "opening".data, "Build rapport fast.".data⟩
        : SearchResult).excerpt.length ≤ 300 ∧
    ∃ p data sec text,
      p ∈ searchScope
            [("sales".data, [("opening".data, "Build rapport fast.".data)])]
            none ∧
      load_pack [("sales".data, [("opening".data, "Build rapport fast.".data)])]
          p = some data ∧
      (sec, text) ∈ data ∧
      (⟨"sales".data, "opening".data, "Build rapport fast.".data⟩ : SearchResult)
          = ⟨p, sec, text.take 300⟩ ∧
      (⟨"sales".data, "opening".data, "Build rapport fast.".data⟩
          : SearchResult).excerpt = text.take 300 ∧
      (text.length ≤ 300 →
        (⟨"sales".data, "opening".data, "Build rapport fast.".data⟩
            : SearchResult).excerpt = text) :=
  search_excerpt_bound
    [("sales".data, [("opening".data, "Build rapport fast.".data)])]
    ⟨"rapport".data⟩ none
    ⟨"sales".data, "opening".data, "Build rapport fast.".data⟩
    (by decide)

/-- C5: a scoped pack whose load fails (no backing document) is silently
skipped by search — removing it from the scope list changes nothing and
the remaining packs are still searched — and a search scoped entirely to
an absent (non-empty) pack name returns an empty result list instead of
an error. -/
theorem search_skips_missing (store : Store) (q : Str)
    (packs1 packs2 : List Str) (p : Str) (req : SearchRequest) :
    (load_pack store p = none →
      searchLoop store q (packs1 ++ p :: packs2) =
        searchLoop store q (packs1 ++ packs2)) ∧
    (p ≠ [] → load_pack store p = none →
      search_pack store req (some p) = ⟨lower (strip req.q), []⟩) := by
  constructor
  · intro h
    rw [searchLoop_append, searchLoop_append]
    congr 1
    simp [searchLoop, h]
  · intro hne h
    have hscope : searchScope store (some p) = [p] := by
      cases p with
      | nil => exact absurd rfl hne
      | cons c rest => rfl
    unfold search_pack
    rw [hscope]
    simp [searchLoop, h]

/-- C5 witness: concrete evaluation of `search_skips_missing` with the
absent pack `ghost` in the middle of a scope list and as the sole scope. -/
theorem search_skips_missing_witness :
    searchLoop [("nlp".data, [("a".data, "b".data)])] "x".data
        (["nlp".data] ++ "ghost".data :: []) =
      searchLoop [("nlp".data, [("a".data, "b".data)])] "x".data
        (["nlp".data] ++ []) ∧
    search_pack [("nlp".data, [("a".data, "b".data)])] ⟨"x".data⟩
        (some "ghost".data) = ⟨lower (strip "x".data), []⟩ :=
  ⟨(search_skips_missing [("nlp".data, [("a".data, "b".data)])] "x".data
      ["nlp".data] [] "ghost".data ⟨"x".data⟩).1 (by decide),
   (search_skips_missing [("nlp".data, [("a".data, "b".data)])] "x".data
      ["nlp".data] [] "ghost".data ⟨"x".data⟩).2 (by decide) (by decide)⟩

theorem searchLoop_nil_query (store : Store) (packs : List Str) :
    searchLoop store [] packs =
      packs.foldr
        (fun p acc =>
          (match load_pack store p with
           | none => []
           | some data =>
             data.map (fun kv => (⟨p, kv.1, kv.2.take 300⟩ : SearchResult)))
          ++ acc) [] := by
  induction packs with
  | nil => rfl
  | cons p rest ih =>
    simp only [searchLoop, List.foldr_cons, ih]
    congr 1
    cases h : load_pack store p with
    | none => rfl
    | some data =>
      simp only []
      rw [List.filter_eq_self.2 (fun kv _ => substr_nil _)]

/-- C10: a query consisting only of whitespace normalizes to the empty
string, which occurs in every section; search then returns exactly one
result per section of every successfully loaded pack in scope. -/
theorem whitespace_query_matches_all (store : Store) (req : SearchRequest)
    (popt : Option Str) (hws : ∀ c ∈ req.q, c.isWhitespace) :
    (search_pack store req popt).query = [] ∧
    (search_pack store req popt).results =
      (searchScope store popt).foldr
        (fun p acc =>
          (match load_pack store p with
           | none => []
           | some data =>
             data.map (fun kv => (⟨p, kv.1, kv.2.take 300⟩ : SearchResult)))
          ++ acc) [] := by
  have hq : lower (strip req.q) = [] := by
    rw [strip_eq_nil hws]
    rfl
  constructor
  · exact hq
  · have hres : (search_pack store req popt).results =
        searchLoop store (lower (strip req.q)) (searchScope store popt) := rfl
    rw [hres, hq, searchLoop_nil_query]

/-- C10 witness: concrete evaluation of `whitespace_query_matches_all` on
a two-space query over a one-pack store. -/
theorem whitespace_query_matches_all_witness :
    (search_pack [("nlp".data, [("a".data, "b".data)])] ⟨"  ".data⟩ none).query
        = [] ∧
    (search_pack [("nlp".data, [("a".data, "b".data)])] ⟨"  ".data⟩ none).results =
      (searchScope [("nlp".data, [("a".data, "b".data)])] none).foldr
        (fun p acc =>
          (match load_pack [("nlp".data, [("a".data, "b".data)])] p with
           | none => []
           | some data =>
             data.map (fun kv => (⟨p, kv.1, kv.2.take 300⟩ : SearchResult)))
          ++ acc) [] :=
  whitespace_query_matches_all [("nlp".data, [("a".data, "b".data)])]
    ⟨"  ".data⟩ none (by decide)

end Toolkit
